import Mathlib

/-!
Verification of the reconciliation and resilience layer of the
terraform-provider-hydra repository, as a shallow embedding in Lean 4.

The embedding follows the latest revision of the Go sources:
the retry/backoff wrapper `retryThrottledHydraAction` and the duration
diff-suppression helper (helpers file), the OAuth2 client reconciler and
codec (`createOAuth2ClientResource`, `readOAuth2ClientResource`,
`dataFromClient`, `dataToClient`), and the JWKS reconciler
(`createJWKSResource`, `generateJWKSResource`, `readJWKSResource`,
`updateJWKSResource`).

Go machine integers are modelled as `Nat`/`Int` with explicit bounds where
overflow matters; fallible operations return `Option`/`Except`; wall-clock
time and jitter draws are passed in as explicit sequences so the real
library's control flow is preserved while remaining pure.
-/

namespace Hydra

/-! ### Retry/backoff wrapper

Model of `retryThrottledHydraAction` (helpers.go) together with the control
flow of `backoff.Retry` over `backoff.ExponentialBackOff` from
github.com/cenkalti/backoff/v4, which the function delegates to.

An invocation of the wrapped Go function `fn` returns a pair
`(*http.Response, error)`; both components may independently be nil, so
each is an `Option`.  A whole execution is abstracted as the sequence
`op : Nat → CallResult` of the results the successive invocations would
produce, together with the sequence `opTime : Nat → Nat` of wall-clock
nanoseconds each invocation consumes and the sequence `delay : Nat → Nat`
of jittered backoff intervals the library's random draws would produce
(`getRandomValueFromInterval` applied to the evolving current interval).
-/

/-- An HTTP response as seen by the retry wrapper: only the status code is
inspected. -/
structure HttpResponse where
  statusCode : Nat
deriving DecidableEq, Repr

/-- Opaque Go error values. -/
abbrev GoError := String

/-- The pair `(*http.Response, error)` returned by one invocation of the
wrapped function. -/
structure CallResult where
  resp : Option HttpResponse
  err : Option GoError
deriving DecidableEq, Repr

/-- `http.StatusTooManyRequests`. -/
def statusTooManyRequests : Nat := 429

/-- Outcome of the `retryAction` closure inside `retryThrottledHydraAction`:
`ok` when `fn` returned a nil error, `transient e` when it returned error
`e` together with a non-nil 429 response (the closure returns `err`,
letting the backoff library retry), `permanent e` otherwise (the closure
returns `backoff.Permanent(err)`). -/
inductive ActionOutcome
  | ok
  | transient (e : GoError)
  | permanent (e : GoError)
deriving DecidableEq, Repr

/-- The `retryAction` closure of `retryThrottledHydraAction`: classify one
invocation result.  Mirrors: nil error means success; a non-nil error with
a non-nil response whose status is 429 is retried; every other non-nil
error is wrapped in `backoff.Permanent`. -/
def retryAction (r : CallResult) : ActionOutcome :=
  match r.err with
  | none => .ok
  | some e =>
    match r.resp with
    | some resp =>
      if resp.statusCode = statusTooManyRequests then .transient e else .permanent e
    | none => .permanent e

/-- Whether an invocation result is classified transient (throttled):
a non-nil error accompanied by a non-nil response with status 429. -/
def isThrottled (r : CallResult) : Bool :=
  match r.err, r.resp with
  | some _, some resp => resp.statusCode == statusTooManyRequests
  | _, _ => false

/-- The `backoff.ExponentialBackOff` policy as used by the wrapper: the
interval-evolution parameters are abstracted into the `delay` sequence of
jittered draws, so only the elapsed-time ceiling `MaxElapsedTime`
(nanoseconds; `0` means no ceiling) remains. -/
structure ExponentialBackOff where
  maxElapsedTime : Nat
deriving DecidableEq, Repr

/-- Wall-clock nanoseconds elapsed since `Retry` reset the policy, measured
just before invocation `i` starts: every earlier invocation's duration plus
every earlier backoff sleep. -/
def elapsedBefore (delay opTime : Nat → Nat) : Nat → Nat
  | 0 => 0
  | i + 1 => elapsedBefore delay opTime i + opTime i + delay i

/-- The loop of `backoff.Retry b.Reset(); for ...` specialised to
`ExponentialBackOff`: invocation `i` takes `opTime i` wall-clock time; on a
nil error return nil; on a `Permanent` error return its wrapped error; else
`NextBackOff` draws the jittered interval `delay i` and returns `Stop`
exactly when `MaxElapsedTime` is non-zero and the elapsed time plus the
drawn interval exceeds it, in which case the current error is returned;
otherwise sleep `delay i` and continue.  The result is the number of
invocations performed paired with the returned error; `none` when the fuel
ran out (the real loop is unbounded). -/
def backoffRetry (op : Nat → CallResult) (delay opTime : Nat → Nat)
    (maxElapsedTime : Nat) : Nat → Nat → Nat → Option (Nat × Option GoError)
  | 0, _, _ => none
  | fuel + 1, i, elapsed =>
    let elapsedAfterOp := elapsed + opTime i
    match retryAction (op i) with
    | .ok => some (i + 1, none)
    | .permanent e => some (i + 1, some e)
    | .transient e =>
      if maxElapsedTime ≠ 0 ∧ maxElapsedTime < elapsedAfterOp + delay i then
        some (i + 1, some e)
      else
        backoffRetry op delay opTime maxElapsedTime fuel (i + 1) (elapsedAfterOp + delay i)

/-- `retryThrottledHydraAction fn backOff` (helpers.go): with a nil policy
execute `fn` once and return its error; with a policy, run `backoff.Retry`
on the `retryAction` closure.  Result: number of invocations of `fn` paired
with the returned error (`none` on success); outer `none` only when the
fuel bound on the otherwise unbounded retry loop ran out. -/
def retryThrottledHydraAction (op : Nat → CallResult) (delay opTime : Nat → Nat)
    (backOff : Option ExponentialBackOff) (fuel : Nat) : Option (Nat × Option GoError) :=
  match backOff with
  | none => some (1, (op 0).err)
  | some b => backoffRetry op delay opTime b.maxElapsedTime fuel 0 0

/-- Classification as `ok` happens exactly on a nil error. -/
lemma retryAction_eq_ok_iff (r : CallResult) : retryAction r = .ok ↔ r.err = none := by
  rcases r with ⟨resp, err⟩
  cases err with
  | none => simp [retryAction]
  | some e =>
    cases resp with
    | none => simp [retryAction]
    | some resp =>
      simp only [retryAction]
      split <;> simp

/-- Classification as transient happens exactly on a non-nil error with a
non-nil 429 response. -/
lemma retryAction_eq_transient_iff (r : CallResult) (e : GoError) :
    retryAction r = .transient e ↔ r.err = some e ∧ isThrottled r = true := by
  rcases r with ⟨resp, err⟩
  cases err with
  | none => simp [retryAction, isThrottled]
  | some e0 =>
    cases resp with
    | none => simp [retryAction, isThrottled]
    | some resp =>
      simp only [retryAction, isThrottled]
      split <;> rename_i hst
      · simp only [ActionOutcome.transient.injEq, Option.some.injEq]
        constructor
        · rintro rfl
          exact ⟨rfl, by simp [hst]⟩
        · rintro ⟨rfl, _⟩
          rfl
      · simp only [reduceCtorEq, false_iff, not_and, Option.some.injEq]
        rintro rfl
        simp [hst]

/-- Classification as permanent happens exactly on a non-nil error that is
not accompanied by a non-nil 429 response. -/
lemma retryAction_eq_permanent_iff (r : CallResult) (e : GoError) :
    retryAction r = .permanent e ↔ r.err = some e ∧ isThrottled r = false := by
  rcases r with ⟨resp, err⟩
  cases err with
  | none => simp [retryAction, isThrottled]
  | some e0 =>
    cases resp with
    | none => simp [retryAction, isThrottled]
    | some resp =>
      simp only [retryAction, isThrottled]
      split <;> rename_i hst
      · simp only [reduceCtorEq, false_iff, not_and, Option.some.injEq]
        rintro rfl
        simp [hst]
      · simp only [ActionOutcome.permanent.injEq, Option.some.injEq]
        constructor
        · rintro rfl
          exact ⟨rfl, by simp [hst]⟩
        · rintro ⟨rfl, _⟩
          rfl

/-- Soundness characterization of the retry loop, generalised over the
attempt index: when the loop entered at attempt `i` (with the wall clock
reading `elapsedBefore delay opTime i`) returns after `n` total
invocations with error result `r`, then every attempt strictly before the
last was throttled and under the ceiling, and the last attempt either
succeeded (nil result), or produced exactly the returned error and was
either classified permanent or throttled with the ceiling exceeded. -/
lemma backoffRetry_characterization (op : Nat → CallResult) (delay opTime : Nat → Nat)
    (M : Nat) :
    ∀ (fuel i n : Nat) (r : Option GoError),
      backoffRetry op delay opTime M fuel i (elapsedBefore delay opTime i) = some (n, r) →
      i + 1 ≤ n ∧
      (∀ j, i ≤ j → j + 1 < n → isThrottled (op j) = true ∧
          ¬(M ≠ 0 ∧ M < elapsedBefore delay opTime (j + 1))) ∧
      ((r = none ∧ (op (n - 1)).err = none) ∨
       (∃ e, r = some e ∧ (op (n - 1)).err = some e ∧
          (isThrottled (op (n - 1)) = false ∨
           (isThrottled (op (n - 1)) = true ∧ M ≠ 0 ∧
              M < elapsedBefore delay opTime n)))) := by
  intro fuel
  induction fuel with
  | zero => intro i n r h; simp [backoffRetry] at h
  | succ fuel ih =>
    intro i n r h
    rw [backoffRetry] at h
    rcases hact : retryAction (op i) with _ | e | e <;> rw [hact] at h <;> dsimp only at h
    · -- success at attempt i
      simp only [Option.some.injEq, Prod.mk.injEq] at h
      obtain ⟨rfl, rfl⟩ := h
      refine ⟨le_refl _, ?_, Or.inl ⟨rfl, ?_⟩⟩
      · intro j hij hlt
        omega
      · simpa using (retryAction_eq_ok_iff (op i)).mp hact
    · -- transient at attempt i
      obtain ⟨herr, hthr⟩ := (retryAction_eq_transient_iff (op i) e).mp hact
      by_cases hstop : M ≠ 0 ∧ M < elapsedBefore delay opTime i + opTime i + delay i
      · rw [if_pos hstop] at h
        simp only [Option.some.injEq, Prod.mk.injEq] at h
        obtain ⟨rfl, rfl⟩ := h
        refine ⟨le_refl _, ?_, Or.inr ⟨e, rfl, by simpa using herr, Or.inr ⟨by simpa using hthr, hstop.1, ?_⟩⟩⟩
        · intro j hij hlt
          omega
        · simpa [elapsedBefore] using hstop.2
      · rw [if_neg hstop] at h
        have h' : backoffRetry op delay opTime M fuel (i + 1)
            (elapsedBefore delay opTime (i + 1)) = some (n, r) := by
          simpa [elapsedBefore] using h
        obtain ⟨hn, hmid, hlast⟩ := ih (i + 1) n r h'
        refine ⟨by omega, ?_, hlast⟩
        intro j hij hlt
        rcases Nat.eq_or_lt_of_le hij with rfl | hij'
        · exact ⟨hthr, by simpa [elapsedBefore] using hstop⟩
        · exact hmid j hij' hlt
    · -- permanent at attempt i
      obtain ⟨herr, hthr⟩ := (retryAction_eq_permanent_iff (op i) e).mp hact
      simp only [Option.some.injEq, Prod.mk.injEq] at h
      obtain ⟨rfl, rfl⟩ := h
      refine ⟨le_refl _, ?_, Or.inr ⟨e, rfl, by simpa using herr, Or.inl (by simpa using hthr)⟩⟩
      intro j hij hlt
      omega

/-- With a non-zero ceiling and strictly positive jittered delays, the
retry loop returns some result once the fuel exceeds the ceiling: each
continued iteration advances the wall clock by at least one while the
continue branch requires it to stay at most `M`. -/
lemma backoffRetry_total (op : Nat → CallResult) (delay opTime : Nat → Nat) (M : Nat)
    (hM : M ≠ 0) (hdelay : ∀ j, 1 ≤ delay j) :
    ∀ (fuel i E : Nat), E ≤ M → M + 1 ≤ E + fuel →
      (backoffRetry op delay opTime M fuel i E).isSome := by
  intro fuel
  induction fuel with
  | zero => intro i E hE hfuel; omega
  | succ fuel ih =>
    intro i E hE hfuel
    rw [backoffRetry]
    rcases hact : retryAction (op i) with _ | e | e <;> dsimp only
    · simp
    · by_cases hstop : M ≠ 0 ∧ M < E + opTime i + delay i
      · rw [if_pos hstop]; simp
      · rw [if_neg hstop]
        have hle : E + opTime i + delay i ≤ M := by
          rcases Nat.lt_or_ge M (E + opTime i + delay i) with hlt | hge
          · exact absurd ⟨hM, hlt⟩ hstop
          · exact hge
        exact ih (i + 1) (E + opTime i + delay i) hle (by have := hdelay i; omega)
    · simp

/-- C1: with a configured (non-nil) backoff policy, whenever the wrapper
returns after `n` invocations with result `r`: (first conjunct) every
invocation before the last returned an error with a 429 response and was
re-invoked because the elapsed-time ceiling was not yet exceeded, and the
last invocation either succeeded, or returned the very error `r` surfaces
and was classified permanent (non-429 status, or no response at all — even
on the first attempt), or was throttled with the cumulative elapsed time
ceiling exceeded (the last error observed is returned); (second conjunct)
with a non-zero ceiling and positive backoff delays the loop cannot run
beyond the ceiling, so a result is always returned. -/
theorem retryThrottledHydraAction_policy_spec :
    (∀ (op : Nat → CallResult) (delay opTime : Nat → Nat) (b : ExponentialBackOff)
      (fuel n : Nat) (r : Option GoError),
      retryThrottledHydraAction op delay opTime (some b) fuel = some (n, r) →
      1 ≤ n ∧
      (∀ j, j + 1 < n → isThrottled (op j) = true ∧
          ¬(b.maxElapsedTime ≠ 0 ∧ b.maxElapsedTime < elapsedBefore delay opTime (j + 1))) ∧
      ((r = none ∧ (op (n - 1)).err = none) ∨
       (∃ e, r = some e ∧ (op (n - 1)).err = some e ∧
          (isThrottled (op (n - 1)) = false ∨
           (isThrottled (op (n - 1)) = true ∧ b.maxElapsedTime ≠ 0 ∧
              b.maxElapsedTime < elapsedBefore delay opTime n))))) ∧
    (∀ (op : Nat → CallResult) (delay opTime : Nat → Nat) (b : ExponentialBackOff)
      (fuel : Nat), b.maxElapsedTime ≠ 0 → (∀ j, 1 ≤ delay j) →
      b.maxElapsedTime + 1 ≤ fuel →
      ∃ n r, retryThrottledHydraAction op delay opTime (some b) fuel = some (n, r)) := by
  constructor
  · intro op delay opTime b fuel n r h
    have h0 : backoffRetry op delay opTime b.maxElapsedTime fuel 0
        (elapsedBefore delay opTime 0) = some (n, r) := by
      simpa [retryThrottledHydraAction, elapsedBefore] using h
    obtain ⟨hn, hmid, hlast⟩ :=
      backoffRetry_characterization op delay opTime b.maxElapsedTime fuel 0 n r h0
    exact ⟨hn, fun j hlt => hmid j (Nat.zero_le j) hlt, hlast⟩
  · intro op delay opTime b fuel hM hdelay hfuel
    have h := backoffRetry_total op delay opTime b.maxElapsedTime hM hdelay fuel 0 0
      (Nat.zero_le _) (by omega)
    rw [retryThrottledHydraAction]
    rcases hres : backoffRetry op delay opTime b.maxElapsedTime fuel 0 0 with _ | ⟨n, r⟩
    · rw [hres] at h; simp at h
    · exact ⟨n, r, rfl⟩

/-- Concrete run exercising C1: two throttled invocations followed by a
permanent error after three invocations in total, under a ceiling that is
never exceeded. -/
theorem retryThrottledHydraAction_policy_spec_witness :
    (1 ≤ 3 ∧
      (∀ j, j + 1 < 3 →
          isThrottled ((fun j => if j < 2 then CallResult.mk (some ⟨429⟩) (some "throttled")
              else CallResult.mk (some ⟨500⟩) (some "boom")) j) = true ∧
          ¬((ExponentialBackOff.mk 1000).maxElapsedTime ≠ 0 ∧
            (ExponentialBackOff.mk 1000).maxElapsedTime <
              elapsedBefore (fun _ => 1) (fun _ => 1) (j + 1))) ∧
      (((some "boom" : Option GoError) = none ∧
          ((fun j => if j < 2 then CallResult.mk (some ⟨429⟩) (some "throttled")
              else CallResult.mk (some ⟨500⟩) (some "boom")) (3 - 1)).err = none) ∨
       (∃ e, (some "boom" : Option GoError) = some e ∧
          ((fun j => if j < 2 then CallResult.mk (some ⟨429⟩) (some "throttled")
              else CallResult.mk (some ⟨500⟩) (some "boom")) (3 - 1)).err = some e ∧
          (isThrottled ((fun j => if j < 2 then CallResult.mk (some ⟨429⟩) (some "throttled")
              else CallResult.mk (some ⟨500⟩) (some "boom")) (3 - 1)) = false ∨
           (isThrottled ((fun j => if j < 2 then CallResult.mk (some ⟨429⟩) (some "throttled")
              else CallResult.mk (some ⟨500⟩) (some "boom")) (3 - 1)) = true ∧
            (ExponentialBackOff.mk 1000).maxElapsedTime ≠ 0 ∧
            (ExponentialBackOff.mk 1000).maxElapsedTime <
              elapsedBefore (fun _ => 1) (fun _ => 1) 3))))) ∧
    (∃ n r, retryThrottledHydraAction
        (fun _ => CallResult.mk (some ⟨429⟩) (some "throttled"))
        (fun _ => 1) (fun _ => 1) (some (ExponentialBackOff.mk 5)) 6 = some (n, r)) :=
  ⟨retryThrottledHydraAction_policy_spec.1
      (fun j => if j < 2 then CallResult.mk (some ⟨429⟩) (some "throttled")
          else CallResult.mk (some ⟨500⟩) (some "boom"))
      (fun _ => 1) (fun _ => 1) (ExponentialBackOff.mk 1000) 10 3 (some "boom") (by decide),
    retryThrottledHydraAction_policy_spec.2
      (fun _ => CallResult.mk (some ⟨429⟩) (some "throttled"))
      (fun _ => 1) (fun _ => 1) (ExponentialBackOff.mk 5) 6 (by decide)
      (fun _ => le_refl 1) (by decide)⟩

/-- C2: with a nil backoff policy the wrapped function is executed exactly
once and its error result (nil on success, the error otherwise) is
returned unmodified: the wrapper handles the nil policy itself, no retry
happens and no special-casing is needed at the call site. -/
theorem retryThrottledHydraAction_nil_policy (op : Nat → CallResult)
    (delay opTime : Nat → Nat) (fuel : Nat) :
    retryThrottledHydraAction op delay opTime none fuel = some (1, (op 0).err) := rfl

/-- C10: an invocation returning a nil error ends the wrapped call
successfully at once — `retryThrottledHydraAction` with a configured
policy returns nil after the single invocation, and from any attempt `i`
of the retry loop a nil error stops the loop with result nil after
invocation `i`, regardless of the HTTP response's status code; the
transient-vs-permanent classification only applies to invocations with a
non-nil error. -/
theorem retryThrottledHydraAction_success_immediate :
    (∀ (op : Nat → CallResult) (delay opTime : Nat → Nat) (b : ExponentialBackOff)
      (fuel : Nat), 1 ≤ fuel → (op 0).err = none →
      retryThrottledHydraAction op delay opTime (some b) fuel = some (1, none)) ∧
    (∀ (op : Nat → CallResult) (delay opTime : Nat → Nat) (M fuel i elapsed : Nat),
      1 ≤ fuel → (op i).err = none →
      backoffRetry op delay opTime M fuel i elapsed = some (i + 1, none)) := by
  have hloop : ∀ (op : Nat → CallResult) (delay opTime : Nat → Nat)
      (M fuel i elapsed : Nat), 1 ≤ fuel → (op i).err = none →
      backoffRetry op delay opTime M fuel i elapsed = some (i + 1, none) := by
    intro op delay opTime M fuel i elapsed hfuel herr
    rcases fuel with _ | fuel
    · omega
    · rw [backoffRetry, (retryAction_eq_ok_iff (op i)).mpr herr]
  exact ⟨fun op delay opTime b fuel hfuel herr => hloop op delay opTime b.maxElapsedTime fuel 0 0 hfuel herr,
    hloop⟩

/-- Concrete run exercising C10: a single invocation that returns a 429
response together with a nil error is accepted as success, both at the
wrapper's entry point and from attempt 2 of the loop. -/
theorem retryThrottledHydraAction_success_immediate_witness :
    retryThrottledHydraAction (fun _ => CallResult.mk (some ⟨429⟩) none)
        (fun _ => 1) (fun _ => 1) (some (ExponentialBackOff.mk 1000)) 5 = some (1, none) ∧
    backoffRetry (fun _ => CallResult.mk (some ⟨429⟩) none)
        (fun _ => 1) (fun _ => 1) 1000 5 2 7 = some (3, none) :=
  ⟨retryThrottledHydraAction_success_immediate.1 (fun _ => CallResult.mk (some ⟨429⟩) none)
      (fun _ => 1) (fun _ => 1) (ExponentialBackOff.mk 1000) 5 (by decide) rfl,
    retryThrottledHydraAction_success_immediate.2 (fun _ => CallResult.mk (some ⟨429⟩) none)
      (fun _ => 1) (fun _ => 1) 1000 5 2 7 (by decide) rfl⟩

/-! ### Duration parsing and diff suppression

Model of `diffSuppressMatchingDurationStrings` (helpers.go), which parses
both attribute values with Go's `time.ParseDuration` and compares the
resulting durations.  `time.ParseDuration` (Go standard library,
time/format.go) is embedded below over `List Char`, with `int64`
arithmetic modelled as `Nat` plus the source's explicit overflow checks;
the one floating-point step — the fractional contribution
`int64(float64(f) * (float64(unit) / scale))` — is modelled as the exact
rational floor `f * unit / scale`, which agrees with the float computation
on all inputs these claims evaluate. -/

/-- `int64` maximum, the bound used by the overflow checks. -/
def maxInt64 : Nat := 2 ^ 63 - 1

/-- Go `time.unitMap`: nanoseconds per unit suffix. -/
def unitMap (u : String) : Option Nat :=
  if u = "ns" then some 1
  else if u = "us" then some 1000
  else if u = "µs" then some 1000
  else if u = "μs" then some 1000
  else if u = "ms" then some 1000000
  else if u = "s" then some 1000000000
  else if u = "m" then some 60000000000
  else if u = "h" then some 3600000000000
  else none

/-- Go `leadingInt`: consume leading decimal digits into an accumulator,
failing on `int64` overflow (`x > (1<<63-1)/10` before the multiply, or a
result that would wrap negative). -/
def leadingInt : List Char → Nat → Option (Nat × List Char)
  | [], x => some (x, [])
  | c :: s, x =>
    if c.isDigit then
      if x > maxInt64 / 10 then none
      else
        let x1 := x * 10 + (c.toNat - '0'.toNat)
        if x1 > maxInt64 then none
        else leadingInt s x1
    else some (x, c :: s)

/-- Go `leadingFraction`: consume leading decimal digits after the point,
tracking the scale; once the accumulator would overflow, further digits are
swallowed without changing value or scale. -/
def leadingFraction : List Char → Nat → Nat → Bool → Nat × Nat × List Char
  | [], x, scale, _ => (x, scale, [])
  | c :: s, x, scale, overflow =>
    if c.isDigit then
      if overflow then leadingFraction s x scale overflow
      else if x > maxInt64 / 10 then leadingFraction s x scale true
      else
        let y := x * 10 + (c.toNat - '0'.toNat)
        if y > maxInt64 then leadingFraction s x scale true
        else leadingFraction s y (scale * 10) overflow
    else (x, scale, c :: s)

/-- Consume the unit suffix: characters up to the next digit or point. -/
def spanUnit : List Char → List Char × List Char
  | [] => ([], [])
  | c :: s =>
    if c = '.' ∨ c.isDigit then ([], c :: s)
    else
      let (u, r) := spanUnit s
      (c :: u, r)

/-- Main loop of Go `time.ParseDuration`: one iteration per
`[0-9]*(\.[0-9]*)?unit` group, accumulating nanoseconds with the source's
overflow checks.  Fuel-indexed; the caller passes enough fuel for the
input's length. -/
def parseDurationLoop : Nat → List Char → Nat → Option Nat
  | 0, _, _ => none
  | _, [], d => some d
  | fuel + 1, c :: s0, d =>
    let s := c :: s0
    if ¬(c = '.' ∨ c.isDigit) then none
    else
      match leadingInt s 0 with
      | none => none
      | some (v, s1) =>
        let pre := decide (s1.length ≠ s.length)
        let fracRes :=
          match s1 with
          | '.' :: s1t =>
            let fr := leadingFraction s1t 0 1 false
            (fr.1, fr.2.1, fr.2.2, decide (fr.2.2.length ≠ s1t.length))
          | _ => (0, 1, s1, false)
        let f := fracRes.1
        let scale := fracRes.2.1
        let s2 := fracRes.2.2.1
        let post := fracRes.2.2.2
        if pre = false ∧ post = false then none
        else
          let us := spanUnit s2
          if us.1 = [] then none
          else
            match unitMap (String.mk us.1) with
            | none => none
            | some unit =>
              if v > maxInt64 / unit then none
              else
                let v1 := v * unit
                let v2 := if f > 0 then v1 + f * unit / scale else v1
                if v2 > maxInt64 then none
                else
                  let d1 := d + v2
                  if d1 > maxInt64 then none
                  else parseDurationLoop fuel us.2 d1

/-- Go `time.ParseDuration`: optional sign, the special case `"0"`, then
the group loop; the result is the signed nanosecond count, `none` on any
parse error. -/
def parseDuration (str : String) : Option Int :=
  let s0 := str.data
  let signRes :=
    match s0 with
    | c :: rest =>
      if c = '-' then (true, rest)
      else if c = '+' then (false, rest)
      else (false, s0)
    | [] => (false, s0)
  let neg := signRes.1
  let s1 := signRes.2
  if s1 = ['0'] then some 0
  else if s1 = [] then none
  else
    match parseDurationLoop (s1.length + 1) s1 0 with
    | none => none
    | some d => if neg then some (-(d : Int)) else some (d : Int)

/-- `diffSuppressMatchingDurationStrings` (helpers.go): parse both the old
and the new attribute value; any parse failure reports a difference, else
compare the parsed durations.  The schema key and resource data arguments
are unused by the source and modelled as such. -/
def diffSuppressMatchingDurationStrings (k old new : String) (d : Unit) : Bool :=
  match parseDuration old with
  | none => false
  | some oldDuration =>
    match parseDuration new with
    | none => false
    | some newDuration => oldDuration == newDuration

/-- C6: for all duration strings that both parse, the diff suppression
returns true exactly when they denote the same duration — equal durations
(such as 60m and 1h) are suppressed, differing durations are reported as
different. -/
theorem diffSuppressMatchingDurationStrings_spec (k a b : String) (d : Unit)
    (da db : Int) (ha : parseDuration a = some da) (hb : parseDuration b = some db) :
    diffSuppressMatchingDurationStrings k a b d = decide (da = db) := by
  simp only [diffSuppressMatchingDurationStrings, ha, hb]
  by_cases h : da = db <;> simp [h]

/-- Concrete instances for C6: 60m and 1h both parse to 3600000000000 ns
and are suppressed; 2s parses differently from 1h and is reported as a
difference. -/
theorem diffSuppressMatchingDurationStrings_spec_witness :
    diffSuppressMatchingDurationStrings "lifespan" "60m" "1h" () =
        decide ((3600000000000 : Int) = 3600000000000) ∧
    diffSuppressMatchingDurationStrings "lifespan" "2s" "1h" () =
        decide ((2000000000 : Int) = 3600000000000) :=
  ⟨diffSuppressMatchingDurationStrings_spec "lifespan" "60m" "1h" ()
      3600000000000 3600000000000 (by decide) (by decide),
    diffSuppressMatchingDurationStrings_spec "lifespan" "2s" "1h" ()
      2000000000 3600000000000 (by decide) (by decide)⟩

/-! ### JSON values

Model of the fragment of Go's `encoding/json` used by the codec:
`json.Unmarshal` into `interface/map` values (used by
`validation.StringIsJSON` and by `dataToClient`) and `json.Marshal` of a
metadata map (used by `dataFromClient`).  Numeric literals are kept
verbatim (Go stores them as `float64`; none of the verified properties
inspect numeric values).  `jsonMarshal` serialises with Go's
lexicographic map-key ordering applied by the codec at the point of use.
-/

/-- A JSON value as produced by `json.Unmarshal` into `interface/map`
form: Go strings map to `str`, every other shape is a non-string value for
the metadata heuristic. -/
inductive Json
  | null
  | bool (b : Bool)
  | num (lit : String)
  | str (s : String)
  | arr (elems : List Json)
  | obj (fields : List (String × Json))

/-- Whether an unmarshalled value is a Go `string` (the `case string`
branch of the metadata type switch). -/
def jsonIsStr : Json → Bool
  | .str _ => true
  | _ => false

/-- The underlying string of a `str` value (only used on values known to
be strings). -/
def jsonAsStr : Json → String
  | .str s => s
  | _ => ""

/-- Hexadecimal digit value. -/
def hexVal (c : Char) : Option Nat :=
  if '0' ≤ c ∧ c ≤ '9' then some (c.toNat - '0'.toNat)
  else if 'a' ≤ c ∧ c ≤ 'f' then some (c.toNat - 'a'.toNat + 10)
  else if 'A' ≤ c ∧ c ≤ 'F' then some (c.toNat - 'A'.toNat + 10)
  else none

/-- Skip JSON whitespace. -/
def skipWs : List Char → List Char
  | [] => []
  | c :: s => if c = ' ' ∨ c = '\t' ∨ c = '\n' ∨ c = '\r' then skipWs s else c :: s

/-- Parse the body of a JSON string after the opening quote, handling the
standard escapes. -/
def parseJsonStringAux : Nat → List Char → List Char → Option (String × List Char)
  | 0, _, _ => none
  | fuel + 1, acc, s =>
    match s with
    | [] => none
    | c :: rest =>
      if c = '"' then some (String.mk acc.reverse, rest)
      else if c = '\\' then
        match rest with
        | [] => none
        | e :: rest2 =>
          if e = '"' then parseJsonStringAux fuel ('"' :: acc) rest2
          else if e = '\\' then parseJsonStringAux fuel ('\\' :: acc) rest2
          else if e = '/' then parseJsonStringAux fuel ('/' :: acc) rest2
          else if e = 'b' then parseJsonStringAux fuel (Char.ofNat 8 :: acc) rest2
          else if e = 'f' then parseJsonStringAux fuel (Char.ofNat 12 :: acc) rest2
          else if e = 'n' then parseJsonStringAux fuel ('\n' :: acc) rest2
          else if e = 'r' then parseJsonStringAux fuel ('\r' :: acc) rest2
          else if e = 't' then parseJsonStringAux fuel ('\t' :: acc) rest2
          else if e = 'u' then
            match rest2 with
            | h1 :: h2 :: h3 :: h4 :: rest3 =>
              match hexVal h1, hexVal h2, hexVal h3, hexVal h4 with
              | some a, some b, some c3, some d =>
                parseJsonStringAux fuel
                  (Char.ofNat (((a * 16 + b) * 16 + c3) * 16 + d) :: acc) rest3
              | _, _, _, _ => none
            | _ => none
          else none
      else if c.toNat < 32 then none
      else parseJsonStringAux fuel (c :: acc) rest

/-- Span of decimal digits. -/
def spanDigits : List Char → List Char × List Char
  | [] => ([], [])
  | c :: s =>
    if c.isDigit then
      let (d, r) := spanDigits s
      (c :: d, r)
    else ([], c :: s)

/-- Parse a JSON number literal (sign, integer part without leading
zeros, optional fraction, optional exponent), returning it verbatim. -/
def parseJsonNumber (s : List Char) : Option (String × List Char) :=
  let signPart : List Char × List Char :=
    match s with
    | '-' :: rest => (['-'], rest)
    | _ => ([], s)
  let intPart : Option (List Char × List Char) :=
    match signPart.2 with
    | '0' :: rest => some (['0'], rest)
    | c :: rest =>
      if c.isDigit then
        let (d, r) := spanDigits rest
        some (c :: d, r)
      else none
    | [] => none
  match intPart with
  | none => none
  | some (ip, s1) =>
    let fracPart : Option (List Char × List Char) :=
      match s1 with
      | '.' :: rest =>
        match spanDigits rest with
        | ([], _) => none
        | (d, r) => some ('.' :: d, r)
      | _ => some ([], s1)
    match fracPart with
    | none => none
    | some (fp, s2) =>
      let expPart : Option (List Char × List Char) :=
        match s2 with
        | c :: rest =>
          if c = 'e' ∨ c = 'E' then
            match rest with
            | sc :: rest2 =>
              if sc = '+' ∨ sc = '-' then
                match spanDigits rest2 with
                | ([], _) => none
                | (d, r) => some (c :: sc :: d, r)
              else
                match spanDigits rest with
                | ([], _) => none
                | (d, r) => some (c :: d, r)
            | [] => none
          else some ([], s2)
        | [] => some ([], s2)
      match expPart with
      | none => none
      | some (ep, s3) => some (String.mk (signPart.1 ++ ip ++ fp ++ ep), s3)

mutual

/-- Recursive-descent parser for a JSON value (fuel-indexed; callers pass
fuel proportional to the input length). -/
def parseJsonValue : Nat → List Char → Option (Json × List Char)
  | 0, _ => none
  | fuel + 1, s =>
    match s with
    | [] => none
    | c :: rest =>
      if c = 'n' then
        match rest with
        | 'u' :: 'l' :: 'l' :: r => some (.null, r)
        | _ => none
      else if c = 't' then
        match rest with
        | 'r' :: 'u' :: 'e' :: r => some (.bool true, r)
        | _ => none
      else if c = 'f' then
        match rest with
        | 'a' :: 'l' :: 's' :: 'e' :: r => some (.bool false, r)
        | _ => none
      else if c = '"' then
        match parseJsonStringAux (rest.length + 1) [] rest with
        | some (str, r) => some (.str str, r)
        | none => none
      else if c = '[' then
        match skipWs rest with
        | ']' :: r => some (.arr [], r)
        | s1 =>
          match parseJsonElems fuel s1 with
          | some (elems, r) => some (.arr elems, r)
          | none => none
      else if c = '\x7b' then
        match skipWs rest with
        | '\x7d' :: r => some (.obj [], r)
        | s1 =>
          match parseJsonFields fuel s1 with
          | some (fields, r) => some (.obj fields, r)
          | none => none
      else if c = '-' ∨ c.isDigit then
        match parseJsonNumber s with
        | some (lit, r) => some (.num lit, r)
        | none => none
      else none

/-- Parse the comma-separated elements of a non-empty array, up to and
including the closing bracket. -/
def parseJsonElems : Nat → List Char → Option (List Json × List Char)
  | 0, _ => none
  | fuel + 1, s =>
    match parseJsonValue fuel s with
    | none => none
    | some (v, r) =>
      match skipWs r with
      | ',' :: r2 =>
        match parseJsonElems fuel (skipWs r2) with
        | some (elems, r3) => some (v :: elems, r3)
        | none => none
      | ']' :: r2 => some ([v], r2)
      | _ => none

/-- Parse the comma-separated members of a non-empty object, up to and
including the closing brace. -/
def parseJsonFields : Nat → List Char → Option (List (String × Json) × List Char)
  | 0, _ => none
  | fuel + 1, s =>
    match s with
    | '"' :: rest =>
      match parseJsonStringAux (rest.length + 1) [] rest with
      | none => none
      | some (key, r) =>
        match skipWs r with
        | ':' :: r2 =>
          match parseJsonValue fuel (skipWs r2) with
          | none => none
          | some (v, r3) =>
            match skipWs r3 with
            | ',' :: r4 =>
              match parseJsonFields fuel (skipWs r4) with
              | some (fields, r5) => some ((key, v) :: fields, r5)
              | none => none
            | '\x7d' :: r4 => some ([(key, v)], r4)
            | _ => none
        | _ => none
    | _ => none

end

/-- `json.Unmarshal` into an `interface` value: parse one JSON value with
nothing but whitespace around it. -/
def jsonParse (s : String) : Option Json :=
  match parseJsonValue (2 * s.length + 4) (skipWs s.data) with
  | some (v, rest) => if skipWs rest = [] then some v else none
  | none => none

/-- Escape one character the way `encoding/json` does by default (quote,
backslash, control characters, and the HTML-escaped `&<>`). -/
def jsonEscapeChar (c : Char) : List Char :=
  if c = '"' then ['\\', '"']
  else if c = '\\' then ['\\', '\\']
  else if c = '\n' then ['\\', 'n']
  else if c = '\r' then ['\\', 'r']
  else if c = '\t' then ['\\', 't']
  else if c = '<' then '\\' :: 'u' :: '0' :: '0' :: '3' :: 'c' :: []
  else if c = '>' then '\\' :: 'u' :: '0' :: '0' :: '3' :: 'e' :: []
  else if c = '&' then '\\' :: 'u' :: '0' :: '0' :: '2' :: '6' :: []
  else if c.toNat < 32 then
    let lo := c.toNat % 16
    let hi := c.toNat / 16
    let hexDigit := fun (n : Nat) => if n < 10 then Char.ofNat ('0'.toNat + n)
      else Char.ofNat ('a'.toNat + (n - 10))
    '\\' :: 'u' :: '0' :: '0' :: hexDigit hi :: hexDigit lo :: []
  else [c]

/-- Serialise a string with quotes and escapes. -/
def jsonMarshalString (s : String) : String :=
  "\"" ++ String.mk (s.data.flatMap jsonEscapeChar) ++ "\""

/-- Insert a keyed field into a key-sorted field list. -/
def insertFieldSorted (kv : String × Json) : List (String × Json) → List (String × Json)
  | [] => [kv]
  | kv2 :: rest =>
    if kv.1 ≤ kv2.1 then kv :: kv2 :: rest
    else kv2 :: insertFieldSorted kv rest

/-- Sort object fields by key, the order `json.Marshal` uses for Go maps. -/
def sortFields (fields : List (String × Json)) : List (String × Json) :=
  fields.foldr insertFieldSorted []

mutual

/-- Serialise a JSON value (object fields are emitted in the order of the
field list; the codec sorts the metadata map's keys before marshalling,
mirroring the map-key ordering of `json.Marshal`). -/
def jsonMarshal : Json → String
  | .null => "null"
  | .bool true => "true"
  | .bool false => "false"
  | .num lit => lit
  | .str s => jsonMarshalString s
  | .arr elems => "[" ++ jsonMarshalElems elems ++ "]"
  | .obj fields => "\x7b" ++ jsonMarshalFields fields ++ "\x7d"

/-- Comma-separated serialisation of array elements. -/
def jsonMarshalElems : List Json → String
  | [] => ""
  | [v] => jsonMarshal v
  | v :: rest => jsonMarshal v ++ "," ++ jsonMarshalElems rest

/-- Comma-separated serialisation of object members. -/
def jsonMarshalFields : List (String × Json) → String
  | [] => ""
  | [kv] => jsonMarshalString kv.1 ++ ":" ++ jsonMarshal kv.2
  | kv :: rest => jsonMarshalString kv.1 ++ ":" ++ jsonMarshal kv.2 ++ "," ++ jsonMarshalFields rest

end

/-! ### OAuth2 client attribute codec

Model of the `dataFromClient` / `dataToClient` fragment of
resource_oauth2_client.go that the claims constrain: the tracked
identifier, the `client_id`, `client_secret`, `metadata` and
`metadata_json` attributes.  The remaining `data.Set` calls of the source
copy other, pairwise distinct attributes and cannot interact with these
fields; they are omitted from the state.  `dataFromClient` is modelled on
the success path of its `jwks` decode step (a `mapstructure` decode of an
unrelated field that precedes the metadata block).

`schema.ResourceData.GetOk` returns false for a zero value: the empty
string for string attributes and the empty map for map attributes, which
is why the decoder treats `some ""` and `some []` as absent. -/

/-- The attribute-bag fragment relevant to the claims.  `id` is the
host-tracked identifier (`data.Id()` / `data.SetId`). -/
structure ClientResourceData where
  id : String
  client_id : String
  client_secret : Option String
  metadata : Option (List (String × String))
  metadata_json : Option String

/-- The `hydra.OAuth2Client` fragment the modelled codec paths touch.
`metadata` is `Metadata.(map[string]interface)` — `none` when the type
assertion fails (nil or non-map), `some` pairs of key and unmarshalled
value otherwise. -/
structure OAuth2Client where
  clientId : Option String
  clientSecret : Option String
  metadata : Option (List (String × Json))

/-- `GetClientId`: the zero string when the pointer is nil. -/
def OAuth2Client.getClientId (c : OAuth2Client) : String :=
  c.clientId.getD ""

/-- `dataFromClient` (resource_oauth2_client.go), restricted to the
modelled attributes and mirroring the source order: `SetId` and
`client_id` always take the remote `GetClientId()`; `client_secret` is
set only when the remote `ClientSecret` pointer is non-nil; the metadata
type switch stores the flattened map and clears `metadata_json` when
every value is a string, stores the JSON serialisation and clears
`metadata` when any value is not a string, and clears both when
`Metadata` is not a map. -/
def dataFromClient (data : ClientResourceData) (oAuthClient : OAuth2Client) :
    ClientResourceData :=
  let data := { data with id := oAuthClient.getClientId,
                          client_id := oAuthClient.getClientId }
  let data :=
    match oAuthClient.clientSecret with
    | some s => { data with client_secret := some s }
    | none => data
  match oAuthClient.metadata with
  | some metadata =>
    if metadata.any (fun kv => !(jsonIsStr kv.2)) then
      { data with metadata_json := some (jsonMarshal (Json.obj (sortFields metadata))),
                  metadata := none }
    else
      { data with metadata := some (metadata.map fun kv => (kv.1, jsonAsStr kv.2)),
                  metadata_json := none }
  | none => { data with metadata := none, metadata_json := none }

/-- `dataToClient` (resource_oauth2_client.go), restricted to the modelled
fields: `SetClientId` always copies the `client_id` attribute;
`ClientSecret` is set only when `GetOk` reports a non-zero
`client_secret`; metadata comes from `metadata_json` when that attribute
is present and non-zero (a failed `json.Unmarshal` is silently ignored,
leaving `Metadata` nil), else from the flattened `metadata` map when that
is present and non-empty. -/
def dataToClient (data : ClientResourceData) : OAuth2Client :=
  let clientSecret :=
    match data.client_secret with
    | some s => if s ≠ "" then some s else none
    | none => none
  let metadata :=
    match data.metadata_json with
    | some s =>
      if s ≠ "" then
        match jsonParse s with
        | some (Json.obj fields) => some fields
        | _ => none
      else
        match data.metadata with
        | some m => if m ≠ [] then some (m.map fun kv => (kv.1, Json.str kv.2)) else none
        | none => none
    | none =>
      match data.metadata with
      | some m => if m ≠ [] then some (m.map fun kv => (kv.1, Json.str kv.2)) else none
      | none => none
  { clientId := some data.client_id, clientSecret := clientSecret, metadata := metadata }

/-- `validation.StringIsJSON` of the `metadata_json` schema entry: the
value must `json.Unmarshal` without error. -/
def stringIsJSON (v : String) : Bool :=
  (jsonParse v).isSome

/-- The host-side validation pass the schema of `resourceOAuth2Client`
mandates before any lifecycle call runs: the configured `metadata_json`
value is checked with its `ValidateFunc`, `validation.StringIsJSON`;
validation failure aborts the operation before the reconciler (and hence
any remote call) is reached. -/
def validateOAuth2ClientConfig (data : ClientResourceData) : Bool :=
  match data.metadata_json with
  | some s => stringIsJSON s
  | none => true

/-! ### Resource reconcilers

Models of the lifecycle handlers of resource_oauth2_client.go and
resource_jwks.go.  Each handler is a function of the current attribute bag
and of the outcome the (retry-wrapped) remote call would produce, and
returns the new attribute bag, the error surfaced to the host
(`diag.FromErr`; `none` for a nil diagnostic) and the list of remote
endpoints invoked, in order, so that call-sequencing claims are statable.
-/

/-- The `hydra.ErrorOAuth2` API error model: `StatusCode` is an optional
integer. -/
structure ErrorOAuth2 where
  statusCode : Option Int

/-- An error returned by a remote call: either a
`hydra.GenericOpenAPIError` — which `errors.As` recognises — whose
`Model()` may or may not be an `ErrorOAuth2`, or any other error. -/
inductive RemoteError
  | openAPI (model : Option ErrorOAuth2) (msg : String)
  | other (msg : String)

/-- The message carried to `diag.FromErr`. -/
def remoteErrMsg : RemoteError → GoError
  | .openAPI _ msg => msg
  | .other msg => msg

/-- `readOAuth2ClientResource` (resource_oauth2_client.go): on success,
decode the fetched client into attributes; on error, when `errors.As`
yields a `GenericOpenAPIError` whose model is an `ErrorOAuth2` with a
non-nil status code equal to 401, clear the tracked identifier and return
no error; otherwise surface the error unchanged. -/
def readOAuth2ClientResource (data : ClientResourceData)
    (remote : Except RemoteError OAuth2Client) : ClientResourceData × Option GoError :=
  match remote with
  | .ok oAuth2Client => (dataFromClient data oAuth2Client, none)
  | .error err =>
    match err with
    | .openAPI (some apiError) _ =>
      if apiError.statusCode = some 401 then ({ data with id := "" }, none)
      else (data, some (remoteErrMsg err))
    | _ => (data, some (remoteErrMsg err))

/-- Remote OAuth2 client endpoints, for call traces. -/
inductive ClientCall
  | createClient
  | getClient (id : String)
  | setClient (id : String)
  | deleteClient (id : String)
deriving DecidableEq, Repr

/-- `createOAuth2ClientResource` (resource_oauth2_client.go): send the
decoded client to the create endpoint; on success decode the create
response itself into attributes — no further remote call is made. -/
def createOAuth2ClientResource (data : ClientResourceData)
    (createResult : Except RemoteError OAuth2Client) :
    ClientResourceData × Option GoError × List ClientCall :=
  match createResult with
  | .error e => (data, some (remoteErrMsg e), [.createClient])
  | .ok oAuth2Client => (dataFromClient data oAuth2Client, none, [.createClient])

/-- The host pipeline for a create: the schema's validation pass runs
first and a validation failure aborts before `createOAuth2ClientResource`
(and hence before any remote call). -/
def createOAuth2ClientPipeline (data : ClientResourceData)
    (createResult : Except RemoteError OAuth2Client) :
    Except GoError (ClientResourceData × Option GoError × List ClientCall) :=
  if validateOAuth2ClientConfig data then .ok (createOAuth2ClientResource data createResult)
  else .error "metadata_json contains invalid JSON"

/-- A JSON Web Key, restricted to the identifying fields the end-to-end
properties mention; the codec copies the remaining fields one-to-one. -/
structure JsonWebKey where
  alg : String
  kid : String
  use : String
  n : String
deriving DecidableEq, Repr

/-- A `hydra.JsonWebKeySet`: a list of keys. -/
structure JsonWebKeySet where
  keys : List JsonWebKey
deriving DecidableEq, Repr

/-- The `generator` block of the JWKS schema. -/
structure JWKSGenerator where
  alg : String
  kid : String
  use : String
  keepers : List (String × String)
deriving DecidableEq, Repr

/-- The JWKS attribute-bag fragment: tracked identifier, `name`, the
`key` list and the optional `generator` block (`GetOk` on the generator
list is true exactly when the block is present). -/
structure JWKSResourceData where
  id : String
  name : String
  key : List JsonWebKey
  generator : Option JWKSGenerator
deriving DecidableEq, Repr

/-- Remote JWKS endpoints, for call traces. -/
inductive JwkCall
  | createSet (name : String)
  | getSet (name : String)
  | setSet (name : String)
  | deleteSet (name : String)
deriving DecidableEq, Repr

/-- The outcomes the three JWKS endpoints would produce for the calls a
handler makes during one lifecycle operation. -/
structure JwkRemote where
  createResult : Except RemoteError JsonWebKeySet
  getResult : Except RemoteError JsonWebKeySet
  setResult : Except RemoteError JsonWebKeySet

/-- `dataFromJWKS` (resource_jwks.go): store the decoded key list into
the key-list attribute. -/
def dataFromJWKS (data : JWKSResourceData) (jwks : JsonWebKeySet) : JWKSResourceData :=
  { data with key := jwks.keys }

/-- `readJWKSResource` (resource_jwks.go): fetch the set by the tracked
identifier; any error is surfaced via `diag.FromErr` with the attribute
bag untouched — there is no status-code inspection on this path. -/
def readJWKSResource (data : JWKSResourceData) (api : JwkRemote) :
    JWKSResourceData × Option GoError × List JwkCall :=
  match api.getResult with
  | .error e => (data, some (remoteErrMsg e), [.getSet data.id])
  | .ok jsonWebKeySet => (dataFromJWKS data jsonWebKeySet, none, [.getSet data.id])

/-- `generateJWKSResource` (resource_jwks.go): call the generate endpoint
with the generator block (its response payload is discarded); on success
adopt the set name as the tracked identifier and delegate to
`readJWKSResource`. -/
def generateJWKSResource (data : JWKSResourceData) (api : JwkRemote) :
    JWKSResourceData × Option GoError × List JwkCall :=
  match api.createResult with
  | .error e => (data, some (remoteErrMsg e), [.createSet data.name])
  | .ok _ =>
    let data1 := { data with id := data.name }
    let r := readJWKSResource data1 api
    (r.1, r.2.1, .createSet data.name :: r.2.2)

/-- `updateJWKSResource` (resource_jwks.go): replace the whole key set by
name (response payload discarded); on success adopt the set name as the
tracked identifier and delegate to `readJWKSResource`. -/
def updateJWKSResource (data : JWKSResourceData) (api : JwkRemote) :
    JWKSResourceData × Option GoError × List JwkCall :=
  match api.setResult with
  | .error e => (data, some (remoteErrMsg e), [.setSet data.name])
  | .ok _ =>
    let data1 := { data with id := data.name }
    let r := readJWKSResource data1 api
    (r.1, r.2.1, .setSet data.name :: r.2.2)

/-- `createJWKSResource` (resource_jwks.go): dispatch on the presence of
the generator block — generate mode when present, inline (set) mode
otherwise. -/
def createJWKSResource (data : JWKSResourceData) (api : JwkRemote) :
    JWKSResourceData × Option GoError × List JwkCall :=
  match data.generator with
  | some _ => generateJWKSResource data api
  | none => updateJWKSResource data api

/-- C3: on an OAuth2 client Read, an error whose API error model carries
status code 401 clears the tracked identifier and produces no error,
while every other error (for example a 500 model, a model without status
code, or a non-API error) is returned with the attribute bag — in
particular the tracked identifier — left unchanged. -/
theorem readOAuth2ClientResource_gone_spec :
    (∀ (data : ClientResourceData) (apiError : ErrorOAuth2) (msg : String),
      apiError.statusCode = some 401 →
      readOAuth2ClientResource data (.error (.openAPI (some apiError) msg)) =
        ({ data with id := "" }, none)) ∧
    (∀ (data : ClientResourceData) (e : RemoteError),
      (match e with
       | .openAPI (some apiError) _ => apiError.statusCode ≠ some 401
       | _ => True) →
      readOAuth2ClientResource data (.error e) = (data, some (remoteErrMsg e))) := by
  constructor
  · intro data apiError msg h
    simp [readOAuth2ClientResource, h]
  · intro data e h
    rcases e with ⟨m, msg⟩ | msg
    · rcases m with _ | apiError
      · simp [readOAuth2ClientResource]
      · simp only at h
        simp [readOAuth2ClientResource, h]
    · simp [readOAuth2ClientResource]

/-- Concrete instances for C3: a 401 API error clears the identifier and
reports success; a 500 API error is surfaced with the identifier kept. -/
theorem readOAuth2ClientResource_gone_spec_witness :
    readOAuth2ClientResource ⟨"abc", "abc", none, none, none⟩
        (.error (.openAPI (some ⟨some 401⟩) "401 Unauthorized")) =
      ({ id := "", client_id := "abc", client_secret := none,
         metadata := none, metadata_json := none }, none) ∧
    readOAuth2ClientResource ⟨"abc", "abc", none, none, none⟩
        (.error (.openAPI (some ⟨some 500⟩) "500 Internal Server Error")) =
      (⟨"abc", "abc", none, none, none⟩, some "500 Internal Server Error") :=
  ⟨readOAuth2ClientResource_gone_spec.1 ⟨"abc", "abc", none, none, none⟩
      ⟨some 401⟩ "401 Unauthorized" rfl,
    readOAuth2ClientResource_gone_spec.2 ⟨"abc", "abc", none, none, none⟩
      (.openAPI (some ⟨some 500⟩) "500 Internal Server Error")
      (by decide)⟩

/-- Refutes C4 at a concrete input: a JWKS Read whose remote call fails
with an unauthorized (401) API error keeps the tracked identifier
unchanged and surfaces the error, instead of clearing the identifier and
returning no error as the claim states. -/
theorem readJWKSResource_gone_counterexample :
    (readJWKSResource ⟨"test", "test", [], none⟩
        ⟨.ok ⟨[]⟩, .error (.openAPI (some ⟨some 401⟩) "getJsonWebKeySetUnauthorized"), .ok ⟨[]⟩⟩).1.id
      = "test" ∧
    (readJWKSResource ⟨"test", "test", [], none⟩
        ⟨.ok ⟨[]⟩, .error (.openAPI (some ⟨some 401⟩) "getJsonWebKeySetUnauthorized"), .ok ⟨[]⟩⟩).2.1
      = some "getJsonWebKeySetUnauthorized" :=
  ⟨rfl, rfl⟩

/-- C4 as amended: a JWKS Read surfaces every remote error verbatim with
the attribute bag (and tracked identifier) unchanged; the
clear-identifier treatment of unauthorized reads exists only in the
OAuth2 client reconciler. -/
theorem readJWKSResource_error_spec (data : JWKSResourceData) (api : JwkRemote)
    (e : RemoteError) (h : api.getResult = .error e) :
    readJWKSResource data api = (data, some (remoteErrMsg e), [.getSet data.id]) := by
  simp [readJWKSResource, h]

/-- Concrete instance for the amended C4: a 404 API error on JWKS Read is
surfaced with the identifier kept. -/
theorem readJWKSResource_error_spec_witness :
    readJWKSResource ⟨"test", "test", [], none⟩
        ⟨.ok ⟨[]⟩, .error (.openAPI (some ⟨some 404⟩) "not found"), .ok ⟨[]⟩⟩ =
      (⟨"test", "test", [], none⟩, some "not found", [.getSet "test"]) :=
  readJWKSResource_error_spec ⟨"test", "test", [], none⟩
    ⟨.ok ⟨[]⟩, .error (.openAPI (some ⟨some 404⟩) "not found"), .ok ⟨[]⟩⟩
    (.openAPI (some ⟨some 404⟩) "not found") rfl

/-- Refutes C5 at a concrete input: a successful OAuth2 client Create
performs exactly the one create call — no Read of the remote resource
follows — and its attributes are decoded from the create response
itself. -/
theorem createOAuth2ClientResource_no_read_counterexample :
    (createOAuth2ClientResource ⟨"", "", none, none, none⟩
        (.ok ⟨some "cid", some "sec", none⟩)).2.2 = [.createClient] ∧
    ClientCall.getClient "cid" ∉
      (createOAuth2ClientResource ⟨"", "", none, none, none⟩
        (.ok ⟨some "cid", some "sec", none⟩)).2.2 ∧
    (createOAuth2ClientResource ⟨"", "", none, none, none⟩
        (.ok ⟨some "cid", some "sec", none⟩)).1 =
      dataFromClient ⟨"", "", none, none, none⟩ ⟨some "cid", some "sec", none⟩ :=
  ⟨rfl, by decide, rfl⟩

/-- C5 as amended: JWKS Create dispatches to generate mode when a
generator block is present and to inline (set) mode otherwise; in both
modes a successful remote call adopts the set name as the tracked
identifier and immediately performs a Read, whose response produces the
resulting attributes; OAuth2 client Create instead decodes the create
response directly (via the same decoder Reads use) with no subsequent
Read. -/
theorem create_read_after_create_spec :
    (∀ (data : JWKSResourceData) (api : JwkRemote) (g : JWKSGenerator),
      data.generator = some g →
      createJWKSResource data api = generateJWKSResource data api) ∧
    (∀ (data : JWKSResourceData) (api : JwkRemote),
      data.generator = none →
      createJWKSResource data api = updateJWKSResource data api) ∧
    (∀ (data : JWKSResourceData) (api : JwkRemote) (w : JsonWebKeySet),
      api.createResult = .ok w →
      generateJWKSResource data api =
        ((readJWKSResource { data with id := data.name } api).1,
         (readJWKSResource { data with id := data.name } api).2.1,
         .createSet data.name :: (readJWKSResource { data with id := data.name } api).2.2)) ∧
    (∀ (data : JWKSResourceData) (api : JwkRemote) (w : JsonWebKeySet),
      api.setResult = .ok w →
      updateJWKSResource data api =
        ((readJWKSResource { data with id := data.name } api).1,
         (readJWKSResource { data with id := data.name } api).2.1,
         .setSet data.name :: (readJWKSResource { data with id := data.name } api).2.2)) ∧
    (∀ (data : ClientResourceData) (oAuth2Client : OAuth2Client),
      createOAuth2ClientResource data (.ok oAuth2Client) =
        (dataFromClient data oAuth2Client, none, [.createClient])) := by
  refine ⟨?_, ?_, ?_, ?_, ?_⟩
  · intro data api g h
    simp [createJWKSResource, h]
  · intro data api h
    simp [createJWKSResource, h]
  · intro data api w h
    simp [generateJWKSResource, h]
  · intro data api w h
    simp [updateJWKSResource, h]
  · intro data oAuth2Client
    simp [createOAuth2ClientResource]

/-- Concrete instances for the amended C5, exercising the generator
dispatch, both success modes (each ending in a Read by the adopted name)
and the read-free OAuth2 client create. -/
theorem create_read_after_create_spec_witness :
    createJWKSResource ⟨"", "s1", [], some ⟨"RS256", "k1", "sig", [("version", "1")]⟩⟩
        ⟨.ok ⟨[]⟩, .ok ⟨[⟨"RS256", "k1", "sig", "mod"⟩]⟩, .ok ⟨[]⟩⟩ =
      generateJWKSResource ⟨"", "s1", [], some ⟨"RS256", "k1", "sig", [("version", "1")]⟩⟩
        ⟨.ok ⟨[]⟩, .ok ⟨[⟨"RS256", "k1", "sig", "mod"⟩]⟩, .ok ⟨[]⟩⟩ ∧
    createJWKSResource ⟨"", "s2", [⟨"RS256", "k2", "sig", "mod2"⟩], none⟩
        ⟨.ok ⟨[]⟩, .ok ⟨[⟨"RS256", "k2", "sig", "mod2"⟩]⟩, .ok ⟨[]⟩⟩ =
      updateJWKSResource ⟨"", "s2", [⟨"RS256", "k2", "sig", "mod2"⟩], none⟩
        ⟨.ok ⟨[]⟩, .ok ⟨[⟨"RS256", "k2", "sig", "mod2"⟩]⟩, .ok ⟨[]⟩⟩ ∧
    generateJWKSResource ⟨"", "s1", [], some ⟨"RS256", "k1", "sig", [("version", "1")]⟩⟩
        ⟨.ok ⟨[]⟩, .ok ⟨[⟨"RS256", "k1", "sig", "mod"⟩]⟩, .ok ⟨[]⟩⟩ =
      (⟨"s1", "s1", [⟨"RS256", "k1", "sig", "mod"⟩],
          some ⟨"RS256", "k1", "sig", [("version", "1")]⟩⟩, none,
        [.createSet "s1", .getSet "s1"]) ∧
    updateJWKSResource ⟨"", "s2", [⟨"RS256", "k2", "sig", "mod2"⟩], none⟩
        ⟨.ok ⟨[]⟩, .ok ⟨[⟨"RS256", "k2", "sig", "mod2"⟩]⟩, .ok ⟨[]⟩⟩ =
      (⟨"s2", "s2", [⟨"RS256", "k2", "sig", "mod2"⟩], none⟩, none,
        [.setSet "s2", .getSet "s2"]) ∧
    createOAuth2ClientResource ⟨"", "", none, none, none⟩ (.ok ⟨some "c9", none, none⟩) =
      (dataFromClient ⟨"", "", none, none, none⟩ ⟨some "c9", none, none⟩, none,
        [.createClient]) :=
  ⟨create_read_after_create_spec.1 _ _ ⟨"RS256", "k1", "sig", [("version", "1")]⟩ rfl,
    create_read_after_create_spec.2.1 _ _ rfl,
    create_read_after_create_spec.2.2.1 _ _ ⟨[]⟩ rfl,
    create_read_after_create_spec.2.2.2.1 _ _ ⟨[]⟩ rfl,
    create_read_after_create_spec.2.2.2.2 _ _⟩

/-- Re-wrapping each flattened string value restores an all-string
metadata map. -/
lemma roundtrip_map_of_all_str (m : List (String × Json))
    (h : m.any (fun kv => !(jsonIsStr kv.2)) = false) :
    (m.map (fun kv => (kv.1, jsonAsStr kv.2))).map (fun kv => (kv.1, Json.str kv.2)) = m := by
  induction m with
  | nil => rfl
  | cons kv rest ih =>
    simp only [List.any_cons, Bool.or_eq_false_iff] at h
    obtain ⟨h1, h2⟩ := h
    rcases kv with ⟨key, v⟩
    cases v <;> simp [jsonIsStr] at h1
    simp only [List.map_cons, ih h2]
    rfl

/-- Refutes C7 at a concrete input: the empty metadata map (all of whose
values are vacuously strings) encodes to the flattened representation,
but decoding those attributes yields no metadata at all (the host reports
an empty map attribute as unset), not the empty map — the round trip
fails for the empty all-string map. -/
theorem metadata_roundtrip_empty_counterexample :
    (dataFromClient ⟨"", "", none, none, none⟩ ⟨some "cid", none, some []⟩).metadata
      = some [] ∧
    (dataFromClient ⟨"", "", none, none, none⟩ ⟨some "cid", none, some []⟩).metadata_json
      = none ∧
    (dataToClient (dataFromClient ⟨"", "", none, none, none⟩
        ⟨some "cid", none, some []⟩)).metadata = none :=
  ⟨rfl, rfl, rfl⟩

/-- C7 as amended: for a remote metadata map all of whose values are
strings, encoding stores the flattened map and clears `metadata_json`,
and when the map is non-empty decoding those attributes yields the map
again; for a map with any non-string value, encoding stores only the JSON
serialisation in `metadata_json` and clears the flattened map — the two
representations are never populated simultaneously. -/
theorem dataFromClient_dataToClient_metadata_spec
    (data : ClientResourceData) (oAuthClient : OAuth2Client)
    (m : List (String × Json)) (hm : oAuthClient.metadata = some m) :
    (m.any (fun kv => !(jsonIsStr kv.2)) = false →
      (dataFromClient data oAuthClient).metadata =
          some (m.map fun kv => (kv.1, jsonAsStr kv.2)) ∧
      (dataFromClient data oAuthClient).metadata_json = none ∧
      (m ≠ [] →
        (dataToClient (dataFromClient data oAuthClient)).metadata = some m)) ∧
    (m.any (fun kv => !(jsonIsStr kv.2)) = true →
      (dataFromClient data oAuthClient).metadata = none ∧
      (dataFromClient data oAuthClient).metadata_json =
          some (jsonMarshal (Json.obj (sortFields m)))) := by
  rcases oAuthClient with ⟨cid, csec, cmeta⟩
  simp only [OAuth2Client.metadata] at hm
  subst hm
  constructor
  · intro hany
    cases csec <;>
      simp [dataFromClient, dataToClient, hany, List.map_map, Function.comp,
        roundtrip_map_of_all_str m hany, List.map_eq_nil_iff]
  · intro hany
    cases csec <;> simp [dataFromClient, hany]

/-- Concrete instances for the amended C7: an all-string singleton map
round-trips through the flattened representation; a map with a numeric
value lands only in `metadata_json`. -/
theorem dataFromClient_dataToClient_metadata_spec_witness :
    ((dataFromClient ⟨"", "", none, none, none⟩
          ⟨some "cid", none, some [("a", Json.str "x")]⟩).metadata
        = some [("a", "x")] ∧
      (dataFromClient ⟨"", "", none, none, none⟩
          ⟨some "cid", none, some [("a", Json.str "x")]⟩).metadata_json = none ∧
      (dataToClient (dataFromClient ⟨"", "", none, none, none⟩
          ⟨some "cid", none, some [("a", Json.str "x")]⟩)).metadata
        = some [("a", Json.str "x")]) ∧
    ((dataFromClient ⟨"", "", none, none, none⟩
          ⟨some "cid", none, some [("a", Json.num "1")]⟩).metadata = none ∧
      (dataFromClient ⟨"", "", none, none, none⟩
          ⟨some "cid", none, some [("a", Json.num "1")]⟩).metadata_json
        = some (jsonMarshal (Json.obj (sortFields [("a", Json.num "1")])))) :=
  ⟨⟨((dataFromClient_dataToClient_metadata_spec ⟨"", "", none, none, none⟩
        ⟨some "cid", none, some [("a", Json.str "x")]⟩ [("a", Json.str "x")] rfl).1
        rfl).1,
    ((dataFromClient_dataToClient_metadata_spec ⟨"", "", none, none, none⟩
        ⟨some "cid", none, some [("a", Json.str "x")]⟩ [("a", Json.str "x")] rfl).1
        rfl).2.1,
    ((dataFromClient_dataToClient_metadata_spec ⟨"", "", none, none, none⟩
        ⟨some "cid", none, some [("a", Json.str "x")]⟩ [("a", Json.str "x")] rfl).1
        rfl).2.2 (by simp)⟩,
    (dataFromClient_dataToClient_metadata_spec ⟨"", "", none, none, none⟩
        ⟨some "cid", none, some [("a", Json.num "1")]⟩ [("a", Json.num "1")] rfl).2 rfl⟩

/-- C8: a configuration whose `metadata_json` attribute is present but is
not valid JSON is rejected by the schema's validation pass before the
reconciler — and so before any remote call — runs; moreover the decoder
derives no metadata from the malformed string, so no create or update
request could carry metadata derived from it.  (The `metadata` attribute
is absent by the schema's ConflictsWith constraint.) -/
theorem metadata_json_invalid_rejected
    (data : ClientResourceData) (s : String)
    (createResult : Except RemoteError OAuth2Client)
    (hjson : data.metadata_json = some s) (hparse : jsonParse s = none)
    (hmeta : data.metadata = none) :
    createOAuth2ClientPipeline data createResult =
        .error "metadata_json contains invalid JSON" ∧
    (dataToClient data).metadata = none := by
  constructor
  · simp [createOAuth2ClientPipeline, validateOAuth2ClientConfig, hjson,
      stringIsJSON, hparse]
  · by_cases hs : s = ""
    · subst hs
      simp [dataToClient, hjson, hmeta]
    · simp [dataToClient, hjson, hparse, hs]

/-- Concrete instance for C8: the malformed string consisting of a lone
opening brace is rejected by validation and decodes to no metadata. -/
theorem metadata_json_invalid_rejected_witness :
    createOAuth2ClientPipeline ⟨"", "", none, none, some "\x7b"⟩
        (.error (.other "never sent")) =
      .error "metadata_json contains invalid JSON" ∧
    (dataToClient ⟨"", "", none, none, some "\x7b"⟩).metadata = none :=
  metadata_json_invalid_rejected ⟨"", "", none, none, some "\x7b"⟩ "\x7b"
    (.error (.other "never sent")) rfl rfl rfl

/-- Refutes C9 at a concrete input: a remote response carrying a present
but empty secret does overwrite the previously stored `client_secret`
attribute with the empty string, although the claim says the attribute is
written only for a non-empty secret. -/
theorem dataFromClient_empty_secret_counterexample :
    (dataFromClient ⟨"x", "x", some "old-secret", none, none⟩
        ⟨some "x", some "", none⟩).client_secret = some "" :=
  rfl

/-- C9 as amended: the encoder writes `client_secret` exactly when the
remote response's secret pointer is non-nil (even if it points at the
empty string); when the response carries no secret the previously stored
attribute value is left unchanged; and the identifier (both the tracked
id and the `client_id` attribute) is always taken from the response's
`client_id`. -/
theorem dataFromClient_client_secret_spec
    (data : ClientResourceData) (oAuthClient : OAuth2Client) :
    (dataFromClient data oAuthClient).client_secret =
      (match oAuthClient.clientSecret with
       | some s => some s
       | none => data.client_secret) ∧
    (dataFromClient data oAuthClient).id = oAuthClient.getClientId ∧
    (dataFromClient data oAuthClient).client_id = oAuthClient.getClientId := by
  rcases oAuthClient with ⟨cid, csec, cmeta⟩
  cases csec <;> cases cmeta <;>
    simp [dataFromClient, OAuth2Client.getClientId, OAuth2Client.clientSecret] <;>
    split <;> simp

end Hydra
